import Mathlib

/-!
Verification of the evpy electric-powertrain library (src/evpy/evpy.py).

The numpy code operates elementwise on float arrays; we model one array
element at a time.  Float values are modelled by exact numbers (ℚ for the
motor and ESC models, ℝ for the battery model, which needs exp and real
powers).  The in-place NaN masking (`a[cond] = np.nan`) is modelled by
`Option`: `none` is the not-applicable (NaN) marker, `some x` a finite value.

Division convention: Mathlib's total field division returns 0 at a zero
denominator, whereas the float code produces non-finite values (inf/nan)
there.  Where a quotient feeds a masking comparison, a zero denominator in
the float code always ends in a NaN output (inf and -inf are removed by the
`>1`/`<0` masks, nan propagates), so those spots are modelled directly as
`none` via an explicit zero test.  Quotients that the source returns
unmasked (motor torque, ESC DC power) are modelled with total division; all
theorems that depend on such a quotient carry the corresponding nonzero (or
positivity) hypothesis, so the divergence at a zero denominator is never
exercised.
-/

namespace Evpy

/-! ### Motor loss model: motor_pred (evpy.py lines 20-76) -/

/-- Output record of `motor_pred`.  `T` and `P_out` are returned by the
source without any mask; `I`, `P_in` and `n` can be NaN. -/
structure MotorOut where
  T : ℚ
  P_out : ℚ
  I : Option ℚ
  P_in : Option ℚ
  n : Option ℚ
  deriving DecidableEq

/-- Source line 59: `T = (V*d*kt - w*(kt**2))/Rm`. -/
def motor_T (w V d Rm kt : ℚ) : ℚ := (V*d*kt - w*kt^2)/Rm

/-- Source line 60: `P_out = T*w`. -/
def motor_P_out (w V d Rm kt : ℚ) : ℚ := motor_T w V d Rm kt * w

/-- Source line 63 before the mask: `I = T/kt + I0`. -/
def motor_Iraw (w V d Rm kt I0 : ℚ) : ℚ := motor_T w V d Rm kt / kt + I0

/-- Source line 64: `I[I<0.0] = np.nan`. -/
def motor_I (w V d Rm kt I0 : ℚ) : Option ℚ :=
  if motor_Iraw w V d Rm kt I0 < 0 then none else some (motor_Iraw w V d Rm kt I0)

/-- Source lines 67-71 on an unmasked current value `i`:
`P_in = P_out*1.1 + (Rm*i**2 + w*kt*I0)/d`. -/
def motor_P_in_raw (w V d Rm kt I0 : ℚ) : ℚ :=
  motor_P_out w V d Rm kt * 1.1 +
    (Rm * (motor_Iraw w V d Rm kt I0)^2 + w*kt*I0) / d

/-- Source line 71: `P_in = P_out*1.1 + (P_L_co+P_L_ir)/d`, where the copper
loss uses the already-masked current, so a NaN current propagates. -/
def motor_P_in (w V d Rm kt I0 : ℚ) : Option ℚ :=
  (motor_I w V d Rm kt I0).map (fun _ => motor_P_in_raw w V d Rm kt I0)

/-- Source lines 72-74: `n = P_out/P_in; n[n>1.0] = np.nan; n[n<0.0] = np.nan`.
The float quotient at `P_in = 0` is inf, -inf or nan, each of which ends as a
NaN output; that case is the explicit zero test. -/
def motor_n (w V d Rm kt I0 : ℚ) : Option ℚ :=
  (motor_P_in w V d Rm kt I0).bind (fun p =>
    if p = 0 then none
    else if motor_P_out w V d Rm kt / p > 1 then none
    else if motor_P_out w V d Rm kt / p < 0 then none
    else some (motor_P_out w V d Rm kt / p))

/-- The five arrays returned by `motor_pred` (source line 76), per element. -/
def motor_pred (w V d Rm kt I0 : ℚ) : MotorOut :=
  ⟨motor_T w V d Rm kt, motor_P_out w V d Rm kt, motor_I w V d Rm kt I0,
   motor_P_in w V d Rm kt I0, motor_n w V d Rm kt I0⟩

/-! ### ESC loss model: esc_pred (evpy.py lines 137-179) -/

/-- Output record of `esc_pred`.  `P_dc` is returned unmasked by the source;
`I_dc` and `n` can be NaN. -/
structure EscOut where
  I_dc : Option ℚ
  P_dc : ℚ
  n : Option ℚ
  deriving DecidableEq

/-- Source lines 168-170:
`P_dc = Pm + (2*Ron*Im**2 + V*Im*f_pwm*Ton)/d`. -/
def esc_P_dc (Im Pm V d f_pwm Ron Ton : ℚ) : ℚ :=
  Pm + (2*Ron*Im^2 + V*Im*f_pwm*Ton)/d

/-- Source lines 171-173: `n = Pm/P_dc; n[n>1.0] = np.nan; n[n<0.0] = np.nan`.
A zero `P_dc` gives a non-finite float quotient that always ends as NaN. -/
def esc_n (Im Pm V d f_pwm Ron Ton : ℚ) : Option ℚ :=
  if esc_P_dc Im Pm V d f_pwm Ron Ton = 0 then none
  else if Pm / esc_P_dc Im Pm V d f_pwm Ron Ton > 1 then none
  else if Pm / esc_P_dc Im Pm V d f_pwm Ron Ton < 0 then none
  else some (Pm / esc_P_dc Im Pm V d f_pwm Ron Ton)

/-- Source lines 175-177:
`I_dc = P_dc/V; I_dc[I_dc>1.0] = np.nan; I_dc[I_dc<0.0] = np.nan`.
A zero `V` gives a non-finite float quotient that always ends as NaN. -/
def esc_I_dc (Im Pm V d f_pwm Ron Ton : ℚ) : Option ℚ :=
  if V = 0 then none
  else if esc_P_dc Im Pm V d f_pwm Ron Ton / V > 1 then none
  else if esc_P_dc Im Pm V d f_pwm Ron Ton / V < 0 then none
  else some (esc_P_dc Im Pm V d f_pwm Ron Ton / V)

/-- The three arrays returned by `esc_pred` (source line 179), per element. -/
def esc_pred (Im Pm V d f_pwm Ron Ton : ℚ) : EscOut :=
  ⟨esc_I_dc Im Pm V d f_pwm Ron Ton, esc_P_dc Im Pm V d f_pwm Ron Ton,
   esc_n Im Pm V d f_pwm Ron Ton⟩

/-- Default of the optional parameter `f_pwm=8e3` in the signature of
`esc_pred` (source line 137). -/
def esc_fpwm_default : ℚ := 8e3

/-- Default of the optional parameter `Ron=10e-3` (source line 137). -/
def esc_Ron_default : ℚ := 10e-3

/-- Default of the optional parameter `Ton=1e-6` (source line 137). -/
def esc_Ton_default : ℚ := 1e-6

/-- A call of `esc_pred` that leaves every optional parameter at its
signature default. -/
def esc_pred_defaults (Im Pm V d : ℚ) : EscOut :=
  esc_pred Im Pm V d esc_fpwm_default esc_Ron_default esc_Ton_default

/-! ### Battery discharge model: batt_pred (evpy.py lines 212-302)

The load current and time samples are modelled as streams `ℕ → ℝ`; the
source operates on same-length vectors and every statement below is about
one sample index.  The series and parallel counts are taken as reals (the
source holds them in floats as soon as they enter arithmetic).  Real powers
(`Real.rpow`) model the float `**`; they agree with the float semantics on
the nonnegative-base and exponent-one regions that the source exercises. -/

/-- Source lines 281-282: `pkrt_exp = ones(...); pkrt_exp[I_load/I_rated>1.0] = pkrt`. -/
noncomputable def batt_pkrt_exp (I_load : ℕ → ℝ) (I_rated pkrt : ℝ) (i : ℕ) : ℝ :=
  if I_load i / I_rated > 1 then pkrt else 1

/-- Source line 283: `I_pkrt = I_load**pkrt_exp`. -/
noncomputable def batt_I_pkrt (I_load : ℕ → ℝ) (I_rated pkrt : ℝ) (i : ℕ) : ℝ :=
  I_load i ^ batt_pkrt_exp I_load I_rated pkrt i

/-- Source line 286: `Q_out = scipy.integrate.cumtrapz(I_pkrt,t_hr,initial=0)`,
the cumulative trapezoid rule with a leading zero sample. -/
noncomputable def batt_Q_out (I_load t_hr : ℕ → ℝ) (I_rated pkrt : ℝ) (i : ℕ) : ℝ :=
  ∑ j ∈ Finset.range i,
    (batt_I_pkrt I_load I_rated pkrt (j+1) + batt_I_pkrt I_load I_rated pkrt j) / 2
      * (t_hr (j+1) - t_hr j)

/-- Source line 287: `Q_out[Q_out>Q_tot] = np.nan`. -/
noncomputable def batt_Q_out_m (I_load t_hr : ℕ → ℝ) (I_rated pkrt Q_tot : ℝ) (i : ℕ) :
    Option ℝ :=
  if batt_Q_out I_load t_hr I_rated pkrt i > Q_tot then none
  else some (batt_Q_out I_load t_hr I_rated pkrt i)

/-- Source line 288: `dod = Q_out/Q_tot` (NaN propagates). -/
noncomputable def batt_dod (I_load t_hr : ℕ → ℝ) (I_rated pkrt Q_tot : ℝ) (i : ℕ) :
    Option ℝ :=
  (batt_Q_out_m I_load t_hr I_rated pkrt Q_tot i).map (fun q => q / Q_tot)

/-- Source line 289: `soc = 1-dod`. -/
noncomputable def batt_soc (I_load t_hr : ℕ → ℝ) (I_rated pkrt Q_tot : ℝ) (i : ℕ) :
    Option ℝ :=
  (batt_dod I_load t_hr I_rated pkrt Q_tot i).map (fun x => 1 - x)

/-- Source lines 292-293, the per-cell open-circuit voltage curve:
`V_soc = -1.031*exp(-35*soc) + 3.685 + 0.2156*soc - 0.1178*soc**2 + 0.3201*soc**3`. -/
noncomputable def batt_V_soc (I_load t_hr : ℕ → ℝ) (I_rated pkrt Q_tot : ℝ) (i : ℕ) :
    Option ℝ :=
  (batt_soc I_load t_hr I_rated pkrt Q_tot i).map (fun s =>
    -1.031*Real.exp (-35*s) + 3.685 + 0.2156*s - 0.1178*s^2 + 0.3201*s^3)

/-- Source line 294: `V_pack = V_soc*n_ser`. -/
noncomputable def batt_V_pack (I_load t_hr : ℕ → ℝ) (I_rated pkrt Q_tot n_ser : ℝ)
    (i : ℕ) : Option ℝ :=
  (batt_V_soc I_load t_hr I_rated pkrt Q_tot i).map (fun v => v * n_ser)

/-- Source line 297: `R_eq = R_int*(n_ser/n_prll)`. -/
noncomputable def batt_R_eq (R_int n_ser n_prll : ℝ) : ℝ := R_int*(n_ser/n_prll)

/-- Source line 300: `V_term = V_pack - I_pkrt*R_eq`. -/
noncomputable def batt_V_term (I_load t_hr : ℕ → ℝ)
    (I_rated pkrt Q_tot n_ser R_int n_prll : ℝ) (i : ℕ) : Option ℝ :=
  (batt_V_pack I_load t_hr I_rated pkrt Q_tot n_ser i).map (fun v =>
    v - batt_I_pkrt I_load I_rated pkrt i * batt_R_eq R_int n_ser n_prll)

/-- Output record of `batt_pred`; after depletion every field is NaN. -/
structure BattOut where
  V_term : Option ℝ
  dod : Option ℝ
  soc : Option ℝ

/-- The three arrays returned by `batt_pred` (source line 302), per sample,
with `Q_tot = I_rated = n_prll*Q_Ah` (source lines 277-278). -/
noncomputable def batt_pred (I_load t_hr : ℕ → ℝ) (Q_Ah R_int n_ser n_prll pkrt : ℝ)
    (i : ℕ) : BattOut :=
  ⟨batt_V_term I_load t_hr (n_prll*Q_Ah) pkrt (n_prll*Q_Ah) n_ser R_int n_prll i,
   batt_dod I_load t_hr (n_prll*Q_Ah) pkrt (n_prll*Q_Ah) i,
   batt_soc I_load t_hr (n_prll*Q_Ah) pkrt (n_prll*Q_Ah) i⟩

/-! ### Spec-side formulas

These definitions transcribe the formulas of the specification text (spec.md
sections 4.2-4.4 and 6), to be compared with the code-side definitions
above.  They follow the spec's words, not the source. -/

/-- Spec 4.2: nominal current in bias form, `I = M/kt + I0`. -/
def spec_motor_I (M kt I0 : ℚ) : ℚ := M/kt + I0

/-- Spec 4.2: electrical input power
`P_ac = 1.1*M*w + (Rm*I^2 + kt*I0*w)/d` (mechanical power plus the flat 10
percent miscellaneous loss, copper and iron losses inflated by one division
by the duty ratio). -/
def spec_motor_Pac (M w d Rm kt I0 : ℚ) : ℚ :=
  1.1*(M*w) + (Rm*(spec_motor_I M kt I0)^2 + kt*I0*w)/d

/-- Spec 4.2: efficiency `eta = M*w/P_ac`. -/
def spec_motor_eta (M w d Rm kt I0 : ℚ) : ℚ :=
  M*w / spec_motor_Pac M w d Rm kt I0

/-- Spec 4.3: claimed DC power
`P_dc = P_ac + P_qui + (2*Ron*I^2 + f_pwm*Ton*V*I)/d`, with the quiescent
power added flat. -/
def spec_esc_Pdc (Im Pm V d f_pwm Ron Ton Pqui : ℚ) : ℚ :=
  Pm + Pqui + (2*Ron*Im^2 + f_pwm*Ton*V*Im)/d

/-- Spec 4.4: the per-cell open-circuit voltage curve
`V_cell(soc) = -1.031*e^(-35 soc) + 3.685 + 0.2156 soc - 0.1178 soc^2 + 0.3201 soc^3`. -/
noncomputable def spec_V_cell (s : ℝ) : ℝ :=
  -1.031*Real.exp (-35*s) + 3.685 + 0.2156*s - 0.1178*s^2 + 0.3201*s^3

/-! ## Helper lemmas: inversion of the masking conditionals -/

/-- The returned motor current is the NaN marker exactly when the solved
current is negative. -/
theorem motor_I_none_iff (w V d Rm kt I0 : ℚ) :
    motor_I w V d Rm kt I0 = none ↔ motor_Iraw w V d Rm kt I0 < 0 := by
  unfold motor_I
  split_ifs with h
  · simp [h]
  · simp [h]

/-- The returned motor current is a finite value exactly when the solved
current is nonnegative, and it is then the solved current unchanged. -/
theorem motor_I_some_iff (w V d Rm kt I0 e : ℚ) :
    motor_I w V d Rm kt I0 = some e ↔
      e = motor_Iraw w V d Rm kt I0 ∧ 0 ≤ motor_Iraw w V d Rm kt I0 := by
  unfold motor_I
  split_ifs with h
  · constructor
    · intro hc; simp at hc
    · rintro ⟨-, hge⟩; exact absurd hge (not_le.2 h)
  · simp [eq_comm, not_lt.1 h]

/-- The returned motor efficiency is a finite value exactly when the solved
current is nonnegative, the input power is nonzero, and the power ratio lies
inside [0,1]; it is then that ratio unchanged. -/
theorem motor_n_some_iff (w V d Rm kt I0 e : ℚ) :
    motor_n w V d Rm kt I0 = some e ↔
      0 ≤ motor_Iraw w V d Rm kt I0 ∧ motor_P_in_raw w V d Rm kt I0 ≠ 0
      ∧ e = motor_P_out w V d Rm kt / motor_P_in_raw w V d Rm kt I0
      ∧ 0 ≤ e ∧ e ≤ 1 := by
  by_cases hneg : motor_Iraw w V d Rm kt I0 < 0
  · have hnone : motor_n w V d Rm kt I0 = none := by
      rw [motor_n, motor_P_in, motor_I, if_pos hneg]; rfl
    rw [hnone]
    simp [not_le.2 hneg]
  · have hstep : motor_n w V d Rm kt I0 =
        (if motor_P_in_raw w V d Rm kt I0 = 0 then none
         else if motor_P_out w V d Rm kt / motor_P_in_raw w V d Rm kt I0 > 1 then none
         else if motor_P_out w V d Rm kt / motor_P_in_raw w V d Rm kt I0 < 0 then none
         else some (motor_P_out w V d Rm kt / motor_P_in_raw w V d Rm kt I0)) := by
      rw [motor_n, motor_P_in, motor_I, if_neg hneg]; rfl
    rw [hstep]
    split_ifs with hp h1 h0
    · simp [hp]
    · constructor
      · intro hc; simp at hc
      · rintro ⟨-, -, he, -, hle⟩; exact absurd (he ▸ hle) (not_le.2 h1)
    · constructor
      · intro hc; simp at hc
      · rintro ⟨-, -, he, h0e, -⟩; exact absurd (he ▸ h0e) (not_le.2 h0)
    · simp only [Option.some.injEq]
      constructor
      · intro hpe
        exact ⟨not_lt.1 hneg, hp, hpe.symm, hpe ▸ not_lt.1 h0, hpe ▸ not_lt.1 h1⟩
      · rintro ⟨-, -, he, -, -⟩; exact he.symm

/-- The returned ESC efficiency is a finite value exactly when the DC power
is nonzero and the power ratio lies inside [0,1]; it is then that ratio
unchanged. -/
theorem esc_n_some_iff (Im Pm V d f_pwm Ron Ton e : ℚ) :
    esc_n Im Pm V d f_pwm Ron Ton = some e ↔
      esc_P_dc Im Pm V d f_pwm Ron Ton ≠ 0
      ∧ e = Pm / esc_P_dc Im Pm V d f_pwm Ron Ton
      ∧ 0 ≤ e ∧ e ≤ 1 := by
  unfold esc_n
  split_ifs with hp h1 h0
  · simp [hp]
  · constructor
    · intro hc; simp at hc
    · rintro ⟨-, he, -, hle⟩; exact absurd (he ▸ hle) (not_le.2 h1)
  · constructor
    · intro hc; simp at hc
    · rintro ⟨-, he, h0e, -⟩; exact absurd (he ▸ h0e) (not_le.2 h0)
  · simp only [Option.some.injEq]
    constructor
    · intro hpe
      exact ⟨hp, hpe.symm, hpe ▸ not_lt.1 h0, hpe ▸ not_lt.1 h1⟩
    · rintro ⟨-, he, -, -⟩; exact he.symm

/-- The returned ESC DC current is a finite value exactly when the bus
voltage is nonzero and the quotient lies inside [0,1] (so any current above
one ampere is masked); it is then that quotient unchanged. -/
theorem esc_I_dc_some_iff (Im Pm V d f_pwm Ron Ton e : ℚ) :
    esc_I_dc Im Pm V d f_pwm Ron Ton = some e ↔
      V ≠ 0
      ∧ e = esc_P_dc Im Pm V d f_pwm Ron Ton / V
      ∧ 0 ≤ e ∧ e ≤ 1 := by
  unfold esc_I_dc
  split_ifs with hp h1 h0
  · simp [hp]
  · constructor
    · intro hc; simp at hc
    · rintro ⟨-, he, -, hle⟩; exact absurd (he ▸ hle) (not_le.2 h1)
  · constructor
    · intro hc; simp at hc
    · rintro ⟨-, he, h0e, -⟩; exact absurd (he ▸ h0e) (not_le.2 h0)
  · simp only [Option.some.injEq]
    constructor
    · intro hpe
      exact ⟨hp, hpe.symm, hpe ▸ not_lt.1 h0, hpe ▸ not_lt.1 h1⟩
    · rintro ⟨-, he, -, -⟩; exact he.symm

/-- The motor input-power expression agrees with the spec-side formula at
the torque the code computes. -/
theorem motor_P_in_raw_eq_spec (w V d Rm kt I0 : ℚ) :
    motor_P_in_raw w V d Rm kt I0 = spec_motor_Pac (motor_T w V d Rm kt) w d Rm kt I0 := by
  unfold motor_P_in_raw spec_motor_Pac spec_motor_I motor_P_out motor_Iraw
  ring

/-! ## Claims -/

/-- C1: for every operating point with duty d in (0,1], nonzero kt and Rm,
whose solved current is unmasked and whose efficiency passes the masks, the
motor loss model computes the current in the bias form I = M/kt + I0 at the
torque M it solves, returns the input power
P_ac = 1.1 M w + (Rm I^2 + kt I0 w)/d (flat 10 percent miscellaneous loss,
copper plus iron loss inflated by exactly one division by d) and the
efficiency M w / P_ac. -/
theorem motor_pred_bias_form (w V d Rm kt I0 : ℚ)
    (hkt : kt ≠ 0) (hRm : Rm ≠ 0) (hd0 : 0 < d) (hd1 : d ≤ 1)
    (hI : 0 ≤ motor_Iraw w V d Rm kt I0)
    (hP : spec_motor_Pac (motor_T w V d Rm kt) w d Rm kt I0 ≠ 0)
    (h0 : 0 ≤ spec_motor_eta (motor_T w V d Rm kt) w d Rm kt I0)
    (h1 : spec_motor_eta (motor_T w V d Rm kt) w d Rm kt I0 ≤ 1) :
    (motor_pred w V d Rm kt I0).I = some (spec_motor_I (motor_T w V d Rm kt) kt I0)
    ∧ (motor_pred w V d Rm kt I0).P_in
        = some (spec_motor_Pac (motor_T w V d Rm kt) w d Rm kt I0)
    ∧ (motor_pred w V d Rm kt I0).n
        = some (spec_motor_eta (motor_T w V d Rm kt) w d Rm kt I0) := by
  have eI : motor_Iraw w V d Rm kt I0 = spec_motor_I (motor_T w V d Rm kt) kt I0 := rfl
  have eP := motor_P_in_raw_eq_spec w V d Rm kt I0
  have ee : motor_P_out w V d Rm kt / motor_P_in_raw w V d Rm kt I0
      = spec_motor_eta (motor_T w V d Rm kt) w d Rm kt I0 := by
    rw [eP]; rfl
  have hIneg : ¬ motor_Iraw w V d Rm kt I0 < 0 := not_lt.2 hI
  have hpne : motor_P_in_raw w V d Rm kt I0 ≠ 0 := by rw [eP]; exact hP
  have hI' : motor_I w V d Rm kt I0 = some (motor_Iraw w V d Rm kt I0) := if_neg hIneg
  have hPin : motor_P_in w V d Rm kt I0 = some (motor_P_in_raw w V d Rm kt I0) := by
    rw [motor_P_in, hI']; rfl
  refine ⟨?_, ?_, ?_⟩
  · show motor_I w V d Rm kt I0 = _
    rw [hI', eI]
  · show motor_P_in w V d Rm kt I0 = _
    rw [hPin, eP]
  · show motor_n w V d Rm kt I0 = _
    rw [motor_n, hPin]
    show (if motor_P_in_raw w V d Rm kt I0 = 0 then none
      else if motor_P_out w V d Rm kt / motor_P_in_raw w V d Rm kt I0 > 1 then none
      else if motor_P_out w V d Rm kt / motor_P_in_raw w V d Rm kt I0 < 0 then none
      else some (motor_P_out w V d Rm kt / motor_P_in_raw w V d Rm kt I0)) = _
    rw [if_neg hpne, ee, if_neg (not_lt.2 h1), if_neg (not_lt.2 h0)]

/-- Witness for C1 at w=1, V=10, d=1, Rm=1, kt=1, I0=1: the solved torque
is 9, the current 10, the input power 110.9 and the efficiency 90/1109. -/
theorem motor_pred_bias_form_witness :
    (0:ℚ) ≤ motor_Iraw 1 10 1 1 1 1 ∧
    spec_motor_Pac (motor_T 1 10 1 1 1) 1 1 1 1 1 ≠ 0 ∧
    ((motor_pred 1 10 1 1 1 1).I = some (spec_motor_I (motor_T 1 10 1 1 1) 1 1)
      ∧ (motor_pred 1 10 1 1 1 1).P_in = some (spec_motor_Pac (motor_T 1 10 1 1 1) 1 1 1 1 1)
      ∧ (motor_pred 1 10 1 1 1 1).n = some (spec_motor_eta (motor_T 1 10 1 1 1) 1 1 1 1 1)) :=
  ⟨by norm_num [motor_Iraw, motor_T],
   by norm_num [spec_motor_Pac, spec_motor_I, motor_T],
   motor_pred_bias_form 1 10 1 1 1 1 (by norm_num) (by norm_num) (by norm_num) (by norm_num)
     (by norm_num [motor_Iraw, motor_T])
     (by norm_num [spec_motor_Pac, spec_motor_I, motor_T])
     (by norm_num [spec_motor_eta, spec_motor_Pac, spec_motor_I, motor_T])
     (by norm_num [spec_motor_eta, spec_motor_Pac, spec_motor_I, motor_T])⟩

/-- C2 counterexample: at Im=1, Pm=10, V=10, d=1 and the code's own
component values, the code returns P_dc = 10.1, while the claimed formula
with the quiescent power P_qui = 0.25 W added flat gives 10.35; the code has
no quiescent-power term at all. -/
theorem esc_no_quiescent_counterexample :
    (esc_pred 1 10 10 1 8000 (1/100) (1/1000000)).P_dc = 101/10
    ∧ spec_esc_Pdc 1 10 10 1 8000 (1/100) (1/1000000) (1/4) = 207/20
    ∧ (101/10 : ℚ) ≠ 207/20 := by
  refine ⟨?_, ?_, by norm_num⟩ <;> norm_num [esc_pred, esc_P_dc, spec_esc_Pdc]

/-- C2 amended: the ESC model returns
P_dc = P_ac + (2 Ron I^2 + f_pwm Ton V I)/d — conduction loss with the
half-bridge factor of 2 and switching loss f_pwm Ton V I inflated once by
dividing by d, with NO quiescent-power term — efficiency P_ac/P_dc and DC
current P_dc/V whenever those pass their masks. -/
theorem esc_pred_power_form (Im Pm V d f_pwm Ron Ton : ℚ)
    (hd0 : 0 < d) (hd1 : d ≤ 1)
    (hp : esc_P_dc Im Pm V d f_pwm Ron Ton ≠ 0) (hV : V ≠ 0)
    (h0n : 0 ≤ Pm / esc_P_dc Im Pm V d f_pwm Ron Ton)
    (h1n : Pm / esc_P_dc Im Pm V d f_pwm Ron Ton ≤ 1)
    (h0i : 0 ≤ esc_P_dc Im Pm V d f_pwm Ron Ton / V)
    (h1i : esc_P_dc Im Pm V d f_pwm Ron Ton / V ≤ 1) :
    (esc_pred Im Pm V d f_pwm Ron Ton).P_dc = Pm + (2*Ron*Im^2 + f_pwm*Ton*V*Im)/d
    ∧ (esc_pred Im Pm V d f_pwm Ron Ton).n
        = some (Pm / esc_P_dc Im Pm V d f_pwm Ron Ton)
    ∧ (esc_pred Im Pm V d f_pwm Ron Ton).I_dc
        = some (esc_P_dc Im Pm V d f_pwm Ron Ton / V) := by
  refine ⟨?_, (esc_n_some_iff Im Pm V d f_pwm Ron Ton _).2 ⟨hp, rfl, h0n, h1n⟩,
    (esc_I_dc_some_iff Im Pm V d f_pwm Ron Ton _).2 ⟨hV, rfl, h0i, h1i⟩⟩
  show esc_P_dc Im Pm V d f_pwm Ron Ton = _
  rw [esc_P_dc]; ring

/-- Witness for C2 amended at Im=1, Pm=10, V=100, d=1 and the code's
defaults: P_dc = 10.82, efficiency 500/541, DC current 541/5000. -/
theorem esc_pred_power_form_witness :
    esc_P_dc 1 10 100 1 8000 (1/100) (1/1000000) ≠ 0
    ∧ ((esc_pred 1 10 100 1 8000 (1/100) (1/1000000)).P_dc
        = 10 + (2*(1/100)*1^2 + 8000*(1/1000000)*100*1)/1
      ∧ (esc_pred 1 10 100 1 8000 (1/100) (1/1000000)).n
          = some (10 / esc_P_dc 1 10 100 1 8000 (1/100) (1/1000000))
      ∧ (esc_pred 1 10 100 1 8000 (1/100) (1/1000000)).I_dc
          = some (esc_P_dc 1 10 100 1 8000 (1/100) (1/1000000) / 100)) :=
  ⟨by norm_num [esc_P_dc],
   esc_pred_power_form 1 10 100 1 8000 (1/100) (1/1000000) (by norm_num) (by norm_num)
     (by norm_num [esc_P_dc]) (by norm_num) (by norm_num [esc_P_dc])
     (by norm_num [esc_P_dc]) (by norm_num [esc_P_dc]) (by norm_num [esc_P_dc])⟩

/-- C3: whenever the battery model returns a finite state of charge s, the
per-cell open-circuit voltage it uses equals exactly
-1.031 e^(-35 s) + 3.685 + 0.2156 s - 0.1178 s^2 + 0.3201 s^3, and the pack
open-circuit voltage is that value multiplied by the series count. -/
theorem batt_ocv_curve (I_load t_hr : ℕ → ℝ) (Q_Ah R_int n_ser n_prll pkrt : ℝ)
    (i : ℕ) (s : ℝ)
    (h : (batt_pred I_load t_hr Q_Ah R_int n_ser n_prll pkrt i).soc = some s) :
    batt_V_soc I_load t_hr (n_prll*Q_Ah) pkrt (n_prll*Q_Ah) i = some (spec_V_cell s)
    ∧ batt_V_pack I_load t_hr (n_prll*Q_Ah) pkrt (n_prll*Q_Ah) n_ser i
        = some (spec_V_cell s * n_ser) := by
  have hsoc : batt_soc I_load t_hr (n_prll*Q_Ah) pkrt (n_prll*Q_Ah) i = some s := h
  constructor
  · rw [batt_V_soc, hsoc]; rfl
  · rw [batt_V_pack, batt_V_soc, hsoc]; rfl

/-- Witness for C3: constant 1 A discharge over half an hour of a 1 Ah unit
reaches soc = 1/2, where the cell curve value is taken verbatim. -/
theorem batt_ocv_curve_witness :
    (batt_pred (fun _ => 1) (fun k => (k:ℝ)/2) 1 1 1 1 1.2 1).soc = some (1/2)
    ∧ (batt_V_soc (fun _ => 1) (fun k => (k:ℝ)/2) (1*1) 1.2 (1*1) 1
        = some (spec_V_cell (1/2))
      ∧ batt_V_pack (fun _ => 1) (fun k => (k:ℝ)/2) (1*1) 1.2 (1*1) 1 1
        = some (spec_V_cell (1/2) * 1)) :=
  ⟨by norm_num [batt_pred, batt_soc, batt_dod, batt_Q_out_m, batt_Q_out, batt_I_pkrt,
      batt_pkrt_exp, Finset.sum_range_one, Real.one_rpow],
   batt_ocv_curve (fun _ => 1) (fun k => (k:ℝ)/2) 1 1 1 1 1.2 1 (1/2)
     (by norm_num [batt_pred, batt_soc, batt_dod, batt_Q_out_m, batt_Q_out, batt_I_pkrt,
        batt_pkrt_exp, Finset.sum_range_one, Real.one_rpow])⟩

/-- C4: when cumulative discharge reaches exactly the rated total capacity
n_prll*Q_Ah at a sample, the returned soc there is 0; every sample at which
cumulative discharge exceeds the rated total capacity (in particular every
subsequent one) has its dod, soc and terminal voltage flagged with the
not-applicable marker. -/
theorem batt_soc_boundary (I_load t_hr : ℕ → ℝ) (Q_Ah R_int n_ser n_prll pkrt : ℝ)
    (i j : ℕ) (hQ : 0 < n_prll*Q_Ah)
    (hi : batt_Q_out I_load t_hr (n_prll*Q_Ah) pkrt i = n_prll*Q_Ah)
    (hj : n_prll*Q_Ah < batt_Q_out I_load t_hr (n_prll*Q_Ah) pkrt j) :
    (batt_pred I_load t_hr Q_Ah R_int n_ser n_prll pkrt i).soc = some 0
    ∧ (batt_pred I_load t_hr Q_Ah R_int n_ser n_prll pkrt j).dod = none
    ∧ (batt_pred I_load t_hr Q_Ah R_int n_ser n_prll pkrt j).soc = none
    ∧ (batt_pred I_load t_hr Q_Ah R_int n_ser n_prll pkrt j).V_term = none := by
  have hnotgt : ¬ batt_Q_out I_load t_hr (n_prll*Q_Ah) pkrt i > n_prll*Q_Ah := by
    rw [hi]; exact lt_irrefl _
  have hmj : batt_Q_out_m I_load t_hr (n_prll*Q_Ah) pkrt (n_prll*Q_Ah) j = none :=
    if_pos hj
  refine ⟨?_, ?_, ?_, ?_⟩
  · show batt_soc I_load t_hr (n_prll*Q_Ah) pkrt (n_prll*Q_Ah) i = some 0
    rw [batt_soc, batt_dod, batt_Q_out_m, if_neg hnotgt, hi]
    simp [div_self (ne_of_gt hQ)]
  · show batt_dod I_load t_hr (n_prll*Q_Ah) pkrt (n_prll*Q_Ah) j = none
    rw [batt_dod, hmj]; rfl
  · show batt_soc I_load t_hr (n_prll*Q_Ah) pkrt (n_prll*Q_Ah) j = none
    rw [batt_soc, batt_dod, hmj]; rfl
  · show batt_V_term I_load t_hr (n_prll*Q_Ah) pkrt (n_prll*Q_Ah) n_ser R_int n_prll j = none
    rw [batt_V_term, batt_V_pack, batt_V_soc, batt_soc, batt_dod, hmj]; rfl

/-- Witness for C4: constant 1 A discharge of a 1 Ah pack over hours 0,1,2
reaches exactly rated capacity at sample 1 (soc 0) and exceeds it at sample
2, where all three outputs are the marker. -/
theorem batt_soc_boundary_witness :
    (0:ℝ) < 1*1
    ∧ batt_Q_out (fun _ => 1) (fun k => (k:ℝ)) (1*1) 1.2 1 = 1*1
    ∧ 1*1 < batt_Q_out (fun _ => 1) (fun k => (k:ℝ)) (1*1) 1.2 2
    ∧ ((batt_pred (fun _ => 1) (fun k => (k:ℝ)) 1 1 1 1 1.2 1).soc = some 0
      ∧ (batt_pred (fun _ => 1) (fun k => (k:ℝ)) 1 1 1 1 1.2 2).dod = none
      ∧ (batt_pred (fun _ => 1) (fun k => (k:ℝ)) 1 1 1 1 1.2 2).soc = none
      ∧ (batt_pred (fun _ => 1) (fun k => (k:ℝ)) 1 1 1 1 1.2 2).V_term = none) :=
  ⟨by norm_num,
   by norm_num [batt_Q_out, batt_I_pkrt, batt_pkrt_exp, Finset.sum_range_one, Real.one_rpow],
   by norm_num [batt_Q_out, batt_I_pkrt, batt_pkrt_exp, Finset.sum_range_succ,
      Finset.sum_range_one, Real.one_rpow],
   batt_soc_boundary (fun _ => 1) (fun k => (k:ℝ)) 1 1 1 1 1.2 1 2 (by norm_num)
     (by norm_num [batt_Q_out, batt_I_pkrt, batt_pkrt_exp, Finset.sum_range_one,
        Real.one_rpow])
     (by norm_num [batt_Q_out, batt_I_pkrt, batt_pkrt_exp, Finset.sum_range_succ,
        Finset.sum_range_one, Real.one_rpow])⟩

/-- C5: with Peukert constant 1.2, a sample whose load current is twice the
rated current n_prll*Q_Ah is integrated as I_load^1.2, a sample whose ratio
to rated current is at most 1 is integrated as I_load unchanged, and the
cumulative charge advances by the trapezoid of exactly these adjusted
currents. -/
theorem batt_peukert (I_load t_hr : ℕ → ℝ) (Q_Ah n_prll : ℝ) (i j : ℕ)
    (hQ : 0 < n_prll*Q_Ah)
    (hi : I_load i = 2*(n_prll*Q_Ah))
    (hj : I_load j / (n_prll*Q_Ah) ≤ 1) :
    batt_I_pkrt I_load (n_prll*Q_Ah) 1.2 i = I_load i ^ (1.2:ℝ)
    ∧ batt_I_pkrt I_load (n_prll*Q_Ah) 1.2 j = I_load j
    ∧ batt_Q_out I_load t_hr (n_prll*Q_Ah) 1.2 (i+1)
        - batt_Q_out I_load t_hr (n_prll*Q_Ah) 1.2 i
      = (batt_I_pkrt I_load (n_prll*Q_Ah) 1.2 (i+1)
          + batt_I_pkrt I_load (n_prll*Q_Ah) 1.2 i)/2 * (t_hr (i+1) - t_hr i) := by
  refine ⟨?_, ?_, ?_⟩
  · have hcond : I_load i / (n_prll*Q_Ah) > 1 := by
      rw [hi, mul_div_assoc, div_self (ne_of_gt hQ)]; norm_num
    rw [batt_I_pkrt, batt_pkrt_exp, if_pos hcond]
  · rw [batt_I_pkrt, batt_pkrt_exp, if_neg (not_lt.2 hj), Real.rpow_one]
  · rw [batt_Q_out, batt_Q_out, Finset.sum_range_succ]
    ring

/-- Witness for C5: a 1 Ah single unit loaded with 2 A at sample 0 (twice
rated, Peukert exponent applied) and 1 A at sample 1 (exponent one). -/
theorem batt_peukert_witness :
    (0:ℝ) < 1*1
    ∧ (fun k => if k = 0 then (2:ℝ) else 1) 0 = 2*(1*1)
    ∧ (fun k => if k = 0 then (2:ℝ) else 1) 1 / (1*1) ≤ 1
    ∧ (batt_I_pkrt (fun k => if k = 0 then (2:ℝ) else 1) (1*1) 1.2 0
        = (if (0:ℕ) = 0 then (2:ℝ) else 1) ^ (1.2:ℝ)
      ∧ batt_I_pkrt (fun k => if k = 0 then (2:ℝ) else 1) (1*1) 1.2 1
        = (if (1:ℕ) = 0 then (2:ℝ) else 1)
      ∧ batt_Q_out (fun k => if k = 0 then (2:ℝ) else 1) (fun k => (k:ℝ)) (1*1) 1.2 (0+1)
          - batt_Q_out (fun k => if k = 0 then (2:ℝ) else 1) (fun k => (k:ℝ)) (1*1) 1.2 0
        = (batt_I_pkrt (fun k => if k = 0 then (2:ℝ) else 1) (1*1) 1.2 (0+1)
            + batt_I_pkrt (fun k => if k = 0 then (2:ℝ) else 1) (1*1) 1.2 0)/2
            * (((0+1 : ℕ):ℝ) - ((0:ℕ):ℝ))) :=
  ⟨by norm_num, by norm_num, by norm_num,
   batt_peukert (fun k => if k = 0 then (2:ℝ) else 1) (fun k => (k:ℝ)) 1 1 0 1
     (by norm_num) (by norm_num) (by norm_num)⟩

/-- C6 counterexample: at w=1, V=10, kt=Rm=I0=1 the motor efficiency at
duty 0.5 is 10/141 and at duty 1.0 is 90/1109, both finite and unmasked,
and 10/141 < 90/1109 — the efficiency at the smaller duty is strictly
SMALLER, not strictly greater as claimed. -/
theorem motor_eta_duty_order_counterexample :
    (motor_pred 1 10 (1/2) 1 1 1).n = some (10/141)
    ∧ (motor_pred 1 10 1 1 1 1).n = some (90/1109)
    ∧ (10/141 : ℚ) < 90/1109 := by
  refine ⟨?_, ?_, by norm_num⟩ <;>
    norm_num [motor_pred, motor_n, motor_P_in, motor_I, motor_Iraw, motor_P_in_raw,
      motor_P_out, motor_T]

/-- C6 amended: for positive speed and motor parameters and duty in (0,1],
every efficiency value the motor model returns unmasked is strictly less
than 1; the claimed cross-duty ordering does not hold. -/
theorem motor_pred_eta_lt_one (w V d Rm kt I0 e : ℚ)
    (hw : 0 < w) (hkt : 0 < kt) (hI0 : 0 < I0) (hRm : 0 < Rm)
    (hd0 : 0 < d) (hd1 : d ≤ 1)
    (h : (motor_pred w V d Rm kt I0).n = some e) : e < 1 := by
  rw [show (motor_pred w V d Rm kt I0).n = motor_n w V d Rm kt I0 from rfl,
    motor_n_some_iff] at h
  obtain ⟨hi, hp, he, h0e, h1e⟩ := h
  set i := motor_Iraw w V d Rm kt I0 with hidef
  set P := motor_P_out w V d Rm kt with hPdef
  set p := motor_P_in_raw w V d Rm kt I0 with hpdef
  have hT : (i - I0) * kt = motor_T w V d Rm kt := by
    rw [hidef, motor_Iraw]
    field_simp
    ring
  have hPe : P = (i - I0) * kt * w := by
    rw [hPdef, motor_P_out, ← hT]
  have hpe : p = P * 1.1 + (Rm*i^2 + w*kt*I0)/d := by
    rw [hpdef, motor_P_in_raw, ← hidef, ← hPdef]
  have hL : 0 < Rm*i^2 + w*kt*I0 := by
    have h1 := mul_pos (mul_pos hw hkt) hI0
    have h2 : (0:ℚ) ≤ Rm*i^2 := mul_nonneg hRm.le (sq_nonneg i)
    linarith
  have hLd : Rm*i^2 + w*kt*I0 ≤ (Rm*i^2 + w*kt*I0)/d := by
    rw [le_div_iff₀ hd0]
    nlinarith
  have hPge : -(kt*w*I0) ≤ P := by nlinarith [mul_pos hkt hw]
  have hkey : P < p := by
    rw [hpe]
    nlinarith [mul_pos (mul_pos hkt hw) hI0]
  have heq : P = e * p := (div_eq_iff hp).1 he.symm
  by_contra hc
  push_neg at hc
  have he1 : e = 1 := le_antisymm h1e hc
  rw [he1, one_mul] at heq
  exact absurd heq (ne_of_lt hkey)

/-- Witness for C6 amended: the unmasked efficiency 90/1109 returned at
w=1, V=10, d=1, Rm=kt=I0=1 is strictly below 1. -/
theorem motor_pred_eta_lt_one_witness :
    (motor_pred 1 10 1 1 1 1).n = some (90/1109) ∧ (90/1109 : ℚ) < 1 :=
  ⟨by norm_num [motor_pred, motor_n, motor_P_in, motor_I, motor_Iraw, motor_P_in_raw,
      motor_P_out, motor_T],
   motor_pred_eta_lt_one 1 10 1 1 1 1 (90/1109) (by norm_num) (by norm_num) (by norm_num)
     (by norm_num) (by norm_num) (by norm_num)
     (by norm_num [motor_pred, motor_n, motor_P_in, motor_I, motor_Iraw, motor_P_in_raw,
        motor_P_out, motor_T])⟩

/-- C7 counterexample: the ESC element at Im=1, Pm=10, V=10, d=1 with the
code defaults has DC current 101/100 — nonnegative — and an in-range
efficiency 100/101, yet its returned DC current is the not-applicable
marker, so an element that the claim says is returned unchanged is masked. -/
theorem esc_extra_mask_counterexample :
    (esc_pred 1 10 10 1 8000 (1/100) (1/1000000)).I_dc = none
    ∧ esc_P_dc 1 10 10 1 8000 (1/100) (1/1000000) / 10 = 101/100
    ∧ (0:ℚ) ≤ 101/100
    ∧ (esc_pred 1 10 10 1 8000 (1/100) (1/1000000)).n = some (100/101) := by
  refine ⟨?_, ?_, by norm_num, ?_⟩ <;>
    norm_num [esc_pred, esc_I_dc, esc_n, esc_P_dc]

/-- C7 amended: per element, the motor current is masked exactly when the
solved current is negative and is otherwise returned unchanged; motor and
ESC efficiencies are masked exactly when the power ratio is undefined or
falls outside [0,1] and are otherwise returned unchanged; the ESC DC
current is additionally masked whenever it exceeds 1.0 A; masking is a
per-element value, never an exception. -/
theorem motor_esc_masking_policy (w V d Rm kt I0 Im Pm Vdc dd f R Tt e1 e2 e3 e4 : ℚ) :
    ((motor_pred w V d Rm kt I0).I = none ↔ motor_Iraw w V d Rm kt I0 < 0)
    ∧ ((motor_pred w V d Rm kt I0).I = some e1 ↔
        e1 = motor_Iraw w V d Rm kt I0 ∧ 0 ≤ motor_Iraw w V d Rm kt I0)
    ∧ ((motor_pred w V d Rm kt I0).n = some e2 ↔
        0 ≤ motor_Iraw w V d Rm kt I0 ∧ motor_P_in_raw w V d Rm kt I0 ≠ 0
        ∧ e2 = motor_P_out w V d Rm kt / motor_P_in_raw w V d Rm kt I0
        ∧ 0 ≤ e2 ∧ e2 ≤ 1)
    ∧ ((esc_pred Im Pm Vdc dd f R Tt).n = some e3 ↔
        esc_P_dc Im Pm Vdc dd f R Tt ≠ 0 ∧ e3 = Pm / esc_P_dc Im Pm Vdc dd f R Tt
        ∧ 0 ≤ e3 ∧ e3 ≤ 1)
    ∧ ((esc_pred Im Pm Vdc dd f R Tt).I_dc = some e4 ↔
        Vdc ≠ 0 ∧ e4 = esc_P_dc Im Pm Vdc dd f R Tt / Vdc ∧ 0 ≤ e4 ∧ e4 ≤ 1) :=
  ⟨motor_I_none_iff w V d Rm kt I0, motor_I_some_iff w V d Rm kt I0 e1,
   motor_n_some_iff w V d Rm kt I0 e2, esc_n_some_iff Im Pm Vdc dd f R Tt e3,
   esc_I_dc_some_iff Im Pm Vdc dd f R Tt e4⟩

/-- C8 counterexample: calling the motor model with the non-positive
resistance Rm = -1 raises nothing and computes through, returning the tuple
(0, 0, 1, 0, NaN). -/
theorem motor_no_validation_counterexample :
    motor_pred 1 1 1 (-1) 1 1 = ⟨0, 0, some 1, some 0, none⟩ := by
  norm_num [motor_pred, motor_T, motor_P_out, motor_I, motor_Iraw, motor_P_in,
    motor_P_in_raw, motor_n]

/-- C8 amended: the library performs no parameter validation; with a
negative resistance the motor model still evaluates its torque formula, and
with a negative rated capacity the battery model silently returns the
not-applicable marker from the first sample on instead of failing fast. -/
theorem no_fail_fast (w V d Rm kt I0 : ℚ) (I_load t_hr : ℕ → ℝ)
    (Q_Ah R_int n_ser n_prll pkrt : ℝ)
    (hRm : Rm < 0) (hQ : n_prll * Q_Ah < 0) :
    (motor_pred w V d Rm kt I0).T = (V*d*kt - w*kt^2)/Rm
    ∧ (batt_pred I_load t_hr Q_Ah R_int n_ser n_prll pkrt 0).soc = none
    ∧ (batt_pred I_load t_hr Q_Ah R_int n_ser n_prll pkrt 0).V_term = none := by
  have h0 : batt_Q_out I_load t_hr (n_prll*Q_Ah) pkrt 0 = 0 := by
    simp [batt_Q_out]
  have hgt : batt_Q_out I_load t_hr (n_prll*Q_Ah) pkrt 0 > n_prll*Q_Ah := by
    rw [h0]; exact hQ
  have hm : batt_Q_out_m I_load t_hr (n_prll*Q_Ah) pkrt (n_prll*Q_Ah) 0 = none :=
    if_pos hgt
  refine ⟨rfl, ?_, ?_⟩
  · show batt_soc I_load t_hr (n_prll*Q_Ah) pkrt (n_prll*Q_Ah) 0 = none
    rw [batt_soc, batt_dod, hm]; rfl
  · show batt_V_term I_load t_hr (n_prll*Q_Ah) pkrt (n_prll*Q_Ah) n_ser R_int n_prll 0 = none
    rw [batt_V_term, batt_V_pack, batt_V_soc, batt_soc, batt_dod, hm]; rfl

/-- Witness for C8 amended at Rm = -1 and Q_Ah = -1. -/
theorem no_fail_fast_witness :
    (-1:ℚ) < 0 ∧ (1:ℝ) * (-1) < 0
    ∧ ((motor_pred 1 1 1 (-1) 1 1).T = (1*1*1 - 1*1^2)/(-1)
      ∧ (batt_pred (fun _ => 1) (fun k => (k:ℝ)) (-1) 1 1 1 1.2 0).soc = none
      ∧ (batt_pred (fun _ => 1) (fun k => (k:ℝ)) (-1) 1 1 1 1.2 0).V_term = none) :=
  ⟨by norm_num, by norm_num,
   no_fail_fast 1 1 1 (-1) 1 1 (fun _ => 1) (fun k => (k:ℝ)) (-1) 1 1 1 1.2
     (by norm_num) (by norm_num)⟩

/-- C9 counterexample: the signature defaults are f_pwm = 8000 Hz (not the
claimed 12 kHz) and Ron = 10 mOhm (not the claimed 1 mOhm), and a
default-parameter call computes a different DC power than a call with the
claimed defaults; there is no quiescent-power parameter at all. -/
theorem esc_defaults_counterexample :
    esc_fpwm_default = 8000 ∧ (8000:ℚ) ≠ 12000
    ∧ esc_Ron_default = 1/100 ∧ ((1/100:ℚ) ≠ 1/1000)
    ∧ (esc_pred_defaults 1 10 10 1).P_dc
        ≠ (esc_pred 1 10 10 1 12000 (1/1000) (1/1000000)).P_dc := by
  norm_num [esc_fpwm_default, esc_Ron_default, esc_Ton_default, esc_pred_defaults,
    esc_pred, esc_P_dc]

/-- C9 amended: the ESC optional parameters default to f_pwm = 8 kHz,
Ron = 10 mOhm and Ton = 1 microsecond, with no quiescent-power parameter,
and each of the three can be overridden: overriding any one of them changes
the computed DC power at a concrete operating point. -/
theorem esc_defaults_overridable (Im Pm V d : ℚ) :
    esc_pred_defaults Im Pm V d = esc_pred Im Pm V d 8000 (1/100) (1/1000000)
    ∧ (esc_pred 1 10 10 1 16000 (1/100) (1/1000000)).P_dc ≠ (esc_pred_defaults 1 10 10 1).P_dc
    ∧ (esc_pred 1 10 10 1 8000 (1/10) (1/1000000)).P_dc ≠ (esc_pred_defaults 1 10 10 1).P_dc
    ∧ (esc_pred 1 10 10 1 8000 (1/100) (1/500000)).P_dc ≠ (esc_pred_defaults 1 10 10 1).P_dc := by
  refine ⟨?_, ?_, ?_, ?_⟩ <;>
    norm_num [esc_pred_defaults, esc_fpwm_default, esc_Ron_default, esc_Ton_default,
      esc_pred, esc_P_dc]

/-- C10: every ESC element whose DC current P_dc/V exceeds 1.0 A is masked
to the not-applicable marker in the returned current — not only negative
ones — while the corresponding DC power and an in-range efficiency are
returned unmasked. -/
theorem esc_idc_upper_mask (Im Pm V d f_pwm Ron Ton : ℚ)
    (hV : V ≠ 0) (hgt : 1 < esc_P_dc Im Pm V d f_pwm Ron Ton / V)
    (hp : esc_P_dc Im Pm V d f_pwm Ron Ton ≠ 0)
    (h0 : 0 ≤ Pm / esc_P_dc Im Pm V d f_pwm Ron Ton)
    (h1 : Pm / esc_P_dc Im Pm V d f_pwm Ron Ton ≤ 1) :
    (esc_pred Im Pm V d f_pwm Ron Ton).I_dc = none
    ∧ (esc_pred Im Pm V d f_pwm Ron Ton).P_dc = esc_P_dc Im Pm V d f_pwm Ron Ton
    ∧ (esc_pred Im Pm V d f_pwm Ron Ton).n
        = some (Pm / esc_P_dc Im Pm V d f_pwm Ron Ton) := by
  refine ⟨?_, rfl, (esc_n_some_iff Im Pm V d f_pwm Ron Ton _).2 ⟨hp, rfl, h0, h1⟩⟩
  show esc_I_dc Im Pm V d f_pwm Ron Ton = none
  rw [esc_I_dc, if_neg hV, if_pos hgt]

/-- Witness for C10 at Im=1, Pm=10, V=10, d=1 with the code defaults:
the DC current 101/100 exceeds one ampere and is masked while P_dc and the
efficiency come back finite. -/
theorem esc_idc_upper_mask_witness :
    1 < esc_P_dc 1 10 10 1 8000 (1/100) (1/1000000) / 10
    ∧ ((esc_pred 1 10 10 1 8000 (1/100) (1/1000000)).I_dc = none
      ∧ (esc_pred 1 10 10 1 8000 (1/100) (1/1000000)).P_dc
          = esc_P_dc 1 10 10 1 8000 (1/100) (1/1000000)
      ∧ (esc_pred 1 10 10 1 8000 (1/100) (1/1000000)).n
          = some (10 / esc_P_dc 1 10 10 1 8000 (1/100) (1/1000000))) :=
  ⟨by norm_num [esc_P_dc],
   esc_idc_upper_mask 1 10 10 1 8000 (1/100) (1/1000000) (by norm_num)
     (by norm_num [esc_P_dc]) (by norm_num [esc_P_dc]) (by norm_num [esc_P_dc])
     (by norm_num [esc_P_dc])⟩

end Evpy
